import Mathlib

/-!
Verification of the codescan-server measure-resolution pipeline.

This file gives a shallow embedding, in Lean 4, of the measure-resolution
pipeline of `src/server.js` (the PDF RAG variant): the document locator
`CMS_PDF_URL`, the section segmenter `extractSections` (ten JavaScript
regular-expression rules, embedded here via a small backtracking matcher
that mirrors the JS engine's preference order), the TTL cache, and the
route handler for `GET /api/cms/measure/:year/:id`.  Theorems about the
spec's claims follow the definitions.
-/

set_option maxRecDepth 10000

/-! ## Character classes and case-insensitive comparison (JS `i` flag, `\s`) -/

/-- JavaScript `\s`: whitespace and line terminators (the ASCII part plus
the Unicode space characters listed by the ECMAScript spec). -/
def isJsSpace (c : Char) : Bool :=
  c = ' ' || c = '\t' || c = '\n' || c = '\r' || c = '\x0b' || c = '\x0c' ||
  c = '\u00a0' || c = '\u1680' || ('\u2000' ≤ c && c ≤ '\u200a') ||
  c = '\u2028' || c = '\u2029' || c = '\u202f' || c = '\u205f' ||
  c = '\u3000' || c = '\ufeff'

/-- JS `[:\s]` character class. -/
def isColonWs (c : Char) : Bool :=
  c = ':' || isJsSpace c

/-- Case-insensitive character equality, as used by the JS `i` flag on the
ASCII patterns of `extractSections`. -/
def ciEq (a b : Char) : Bool :=
  a.toLower = b.toLower

/-- `String.prototype.trim`: drop JS whitespace from both ends. -/
def jsTrim (l : List Char) : List Char :=
  ((l.dropWhile isJsSpace).reverse.dropWhile isJsSpace).reverse

/-! ## A small backtracking regex engine

Each `extractSections` pattern has the shape
`LABEL[:\s]+(.+?)(?:T1|T2|...)` with flags `si`: a case-insensitive label
(literal characters, `\s+` gaps, an optional trailing `S`), the class
`[:\s]+` (greedy), one lazy dotall capture group `(.+?)`, and an
alternation of terminators (literals, `\n`, `\n\n`, or `$`).  The atoms
below cover exactly those constructs; `matchAtom` returns the possible
remainders in the JS engine's preference order (greedy quantifiers
longest-first), and the lazy capture is explored shortest-first, as the
JS engine does. -/

inductive Atom where
  /-- a literal pattern character, compared case-insensitively -/
  | lit (c : Char)
  /-- `\s+` -/
  | wsPlus
  /-- `[:\s]+` -/
  | colonWsPlus
  /-- `[S]?` (greedy optional literal) -/
  | optLit (c : Char)
  /-- `$` (end of input; no `m` flag) -/
  | eos
  deriving DecidableEq

/-- Length of the maximal prefix of `l` satisfying `p`. -/
def leadCount (p : Char → Bool) : List Char → Nat
  | [] => 0
  | c :: rest => if p c then leadCount p rest + 1 else 0

/-- Remainders after a greedy one-or-more quantifier whose maximal run has
length `k`, longest consumption first: `[l.drop k, ..., l.drop 1]`. -/
def greedySuffixes (k : Nat) (l : List Char) : List (List Char) :=
  match k with
  | 0 => []
  | Nat.succ k2 => l.drop (k2 + 1) :: greedySuffixes k2 l

/-- All remainders after matching one atom against `l`, in the JS engine's
preference order. -/
def matchAtom (a : Atom) (l : List Char) : List (List Char) :=
  match a, l with
  | Atom.lit c, [] => []
  | Atom.lit c, d :: rest => if ciEq c d then [rest] else []
  | Atom.wsPlus, l => greedySuffixes (leadCount isJsSpace l) l
  | Atom.colonWsPlus, l => greedySuffixes (leadCount isColonWs l) l
  | Atom.optLit c, [] => [[]]
  | Atom.optLit c, d :: rest => if ciEq c d then [rest, d :: rest] else [d :: rest]
  | Atom.eos, [] => [[]]
  | Atom.eos, _ :: _ => []

/-- All remainders after matching a sequence of atoms, in preference order. -/
def matchAtoms : List Atom → List Char → List (List Char)
  | [], l => [l]
  | a :: as, l => (matchAtom a l).flatMap (matchAtoms as)

/-- Whether some alternative of the terminator alternation matches at this
position (only the existence matters for the overall match and for the
content of the capture group). -/
def stopMatches (stops : List (List Atom)) (l : List Char) : Bool :=
  stops.any (fun t => !(matchAtoms t l).isEmpty)

/-- The lazy capture `(.+?)` followed by the terminator alternation:
starting from the shortest nonempty capture, return the first capture
after which some terminator matches (`acc` holds the characters captured
so far, in order). -/
def lazyCaptureFrom (stops : List (List Atom)) (acc : List Char) : List Char → Option (List Char)
  | [] => none
  | d :: rest =>
    if stopMatches stops rest then some (acc ++ [d])
    else lazyCaptureFrom stops (acc ++ [d]) rest

/-- One section rule `NAME: /PRE(.+?)(?:STOPS)/si`. -/
structure SectionRule where
  name : String
  pre : List Atom
  stops : List (List Atom)

/-- First `some` produced by `f` along the list, in order. -/
def firstSome (f : α → Option β) : List α → Option β
  | [] => none
  | a :: as =>
    match f a with
    | some b => some b
    | none => firstSome f as

/-- Try to match a rule with the match starting exactly at `l`:
prefix alternatives in preference order, then the lazy capture. -/
def tryAt (r : SectionRule) (l : List Char) : Option (List Char) :=
  firstSome (fun rest => lazyCaptureFrom r.stops [] rest) (matchAtoms r.pre l)

/-- `text.match(pattern)` without the `g` flag: scan start positions left
to right and return the capture group of the first successful match. -/
def searchMatch (r : SectionRule) : List Char → Option (List Char)
  | [] => tryAt r []
  | c :: rest =>
    match tryAt r (c :: rest) with
    | some cap => some cap
    | none => searchMatch r rest

/-! ## The ten section rules of `extractSections` -/

/-- Literal pattern characters of a label word. -/
def lits (s : String) : List Atom :=
  s.data.map Atom.lit

/-- `measureTitle: /MEASURE\s+TITLE[:\s]+(.+?)(?:\n|MEASURE TYPE)/si` -/
def measureTitleRule : SectionRule :=
  { name := "measureTitle"
    pre := lits "MEASURE" ++ [Atom.wsPlus] ++ lits "TITLE" ++ [Atom.colonWsPlus]
    stops := [[Atom.lit '\n'], lits "MEASURE TYPE"] }

/-- `measureType: /MEASURE\s+TYPE[:\s]+(.+?)(?:\n\n|\nCOLLECTION)/si` -/
def measureTypeRule : SectionRule :=
  { name := "measureType"
    pre := lits "MEASURE" ++ [Atom.wsPlus] ++ lits "TYPE" ++ [Atom.colonWsPlus]
    stops := [[Atom.lit '\n', Atom.lit '\n'], [Atom.lit '\n'] ++ lits "COLLECTION"] }

/-- `description: /DESCRIPTION[:\s]+(.+?)(?:\n\n|INSTRUCTIONS|DENOMINATOR)/si` -/
def descriptionRule : SectionRule :=
  { name := "description"
    pre := lits "DESCRIPTION" ++ [Atom.colonWsPlus]
    stops := [[Atom.lit '\n', Atom.lit '\n'], lits "INSTRUCTIONS", lits "DENOMINATOR"] }

/-- `denominator: /DENOMINATOR[:\s]+(.+?)(?:DENOMINATOR\s+NOTE|NUMERATOR|EXCLUSION)/si` -/
def denominatorRule : SectionRule :=
  { name := "denominator"
    pre := lits "DENOMINATOR" ++ [Atom.colonWsPlus]
    stops := [lits "DENOMINATOR" ++ [Atom.wsPlus] ++ lits "NOTE", lits "NUMERATOR", lits "EXCLUSION"] }

/-- `denominatorNote: /DENOMINATOR\s+NOTE[:\s]+(.+?)(?:NUMERATOR|EXCLUSION)/si` -/
def denominatorNoteRule : SectionRule :=
  { name := "denominatorNote"
    pre := lits "DENOMINATOR" ++ [Atom.wsPlus] ++ lits "NOTE" ++ [Atom.colonWsPlus]
    stops := [lits "NUMERATOR", lits "EXCLUSION"] }

/-- `numerator: /NUMERATOR[:\s]+(.+?)(?:NUMERATOR\s+NOTE|EXCLUSION|EXCEPTION|RATIO)/si` -/
def numeratorRule : SectionRule :=
  { name := "numerator"
    pre := lits "NUMERATOR" ++ [Atom.colonWsPlus]
    stops := [lits "NUMERATOR" ++ [Atom.wsPlus] ++ lits "NOTE", lits "EXCLUSION",
      lits "EXCEPTION", lits "RATIO"] }

/-- `exclusions: /EXCLUSION[S]?[:\s]+(.+?)(?:EXCEPTION|RATIO|CLINICAL|PERFORMANCE)/si` -/
def exclusionsRule : SectionRule :=
  { name := "exclusions"
    pre := lits "EXCLUSION" ++ [Atom.optLit 'S', Atom.colonWsPlus]
    stops := [lits "EXCEPTION", lits "RATIO", lits "CLINICAL", lits "PERFORMANCE"] }

/-- `exceptions: /EXCEPTION[S]?[:\s]+(.+?)(?:RATIO|CLINICAL|PERFORMANCE|$)/si` -/
def exceptionsRule : SectionRule :=
  { name := "exceptions"
    pre := lits "EXCEPTION" ++ [Atom.optLit 'S', Atom.colonWsPlus]
    stops := [lits "RATIO", lits "CLINICAL", lits "PERFORMANCE", [Atom.eos]] }

/-- `rationale: /RATIONALE[:\s]+(.+?)(?:CLINICAL|GUIDANCE|$)/si` -/
def rationaleRule : SectionRule :=
  { name := "rationale"
    pre := lits "RATIONALE" ++ [Atom.colonWsPlus]
    stops := [lits "CLINICAL", lits "GUIDANCE", [Atom.eos]] }

/-- `submissionMethods: /SUBMISSION\s+METHOD[S]?[:\s]+(.+?)(?:\n\n|DENOMINATOR)/si` -/
def submissionMethodsRule : SectionRule :=
  { name := "submissionMethods"
    pre := lits "SUBMISSION" ++ [Atom.wsPlus] ++ lits "METHOD" ++ [Atom.optLit 'S', Atom.colonWsPlus]
    stops := [[Atom.lit '\n', Atom.lit '\n'], lits "DENOMINATOR"] }

/-- The rules of `extractSections`, in the object-literal (iteration) order
of the source. -/
def patterns : List SectionRule :=
  [measureTitleRule, measureTypeRule, descriptionRule, denominatorRule,
   denominatorNoteRule, numeratorRule, exclusionsRule, exceptionsRule,
   rationaleRule, submissionMethodsRule]

/-- `function extractSections(text)`: for each rule in order, when
`text.match(pattern)` succeeds, insert `match[1].trim().slice(0, 1000)`
under the rule's name. -/
def extractSections (text : String) : List (String × String) :=
  patterns.foldl
    (fun sections r =>
      match searchMatch r text.data with
      | some cap => sections ++ [(r.name, String.mk ((jsTrim cap).take 1000))]
      | none => sections)
    []

/-- Reading a key off the section map (JS property access on the object
built by `extractSections`; keys are inserted at most once). -/
def sectionsGet (m : List (String × String)) (k : String) : Option String :=
  (m.find? (fun p => p.fst == k)).map Prod.snd

/-! ## Document locator, TTL cache, and the route handler -/

/-- `String.prototype.padStart(n, pad)`: left-pad to length at least `n`. -/
def padStart (n : Nat) (pad : Char) (s : String) : String :=
  String.mk (List.replicate (n - s.length) pad) ++ s

/-- `String.prototype.slice(0, n)` on the character sequence (the texts at
play are ASCII, where JS UTF-16 units and characters coincide). -/
def strTake (s : String) (n : Nat) : String :=
  String.mk (s.data.take n)

/-- `const CMS_PDF_URL = (year, id) => ...`: zero-pad the id to width 3 and
interpolate into the fixed URL template. -/
def CMS_PDF_URL (year id : String) : String :=
  let paddedId := padStart 3 '0' id
  s!"https://qpp.cms.gov/docs/QPP_quality_measure_specifications/CQM-Measures/{year}_Measure_{paddedId}_MIPSCQM.pdf"

/-- `const PDF_TTL = 7 * 24 * 60 * 60 * 1000` (milliseconds). -/
def PDF_TTL : Nat := 7 * 24 * 60 * 60 * 1000

/-- The HTTP response of the outbound `fetch` (only `ok` is consulted by
the measure route; the status is carried along as data). -/
structure HttpResp where
  ok : Bool
  status : Nat
  deriving DecidableEq

/-- The output of `pdfParse`: full text and page count. -/
structure PdfData where
  text : String
  numpages : Nat
  deriving DecidableEq

/-- The success payload (`result` object) of the measure route.  Time
stamps are modeled as millisecond counts (`fetchedAt` stands for the
`new Date().toISOString()` of that instant). -/
structure MeasureData where
  id : String
  year : String
  pdfUrl : String
  fullText : String
  sections : List (String × String)
  pageCount : Nat
  charCount : Nat
  fetchedAt : Nat
  source : String
  deriving DecidableEq

/-- An entry of `pdfCache`: `{ data, ts }`. -/
structure CacheEntry where
  data : MeasureData
  ts : Nat
  deriving DecidableEq

/-- `pdfCache` as a finite map from cache keys to entries. -/
def Cache : Type := String → Option CacheEntry

/-- `pdfCache[k] = e` (JS object property assignment). -/
def cacheSet (k : String) (e : CacheEntry) (c : Cache) : Cache :=
  fun k2 => if k2 = k then some e else c k2

/-- Removal of a key (used to state that an expired entry behaves like an
absent one; the source never deletes entries). -/
def cacheRemove (k : String) (c : Cache) : Cache :=
  fun k2 => if k2 = k then none else c k2

/-- The cache key `` `pdf_${year}_${id}` ``. -/
def cacheKey (year id : String) : String :=
  s!"pdf_{year}_{id}"

/-- The guard `pdfCache[cacheKey] && Date.now() - pdfCache[cacheKey].ts < PDF_TTL`:
`some data` on a live entry, `none` otherwise. -/
def cacheHit (c : Cache) (now : Nat) (k : String) : Option MeasureData :=
  match c k with
  | some e => if now - e.ts < PDF_TTL then some e.data else none
  | none => none

/-- The JSON responses the route can send, by HTTP status and shape:
`res.json(result)` or `res.json({...data, cached: true})` (200),
the 404 body `{error, id, year, pdfUrl, hint}`, and the catch-all 502
body `{error, id, year, pdfUrl}`. -/
inductive Response where
  | success (data : MeasureData) (cached : Bool)
  | notFound (error : String) (id year pdfUrl hint : String)
  | serverError (error : String) (id year pdfUrl : String)
  deriving DecidableEq

/-- The HTTP status the route sets for each response shape. -/
def respStatus : Response → Nat
  | Response.success _ _ => 200
  | Response.notFound _ _ _ _ _ => 404
  | Response.serverError _ _ _ _ => 502

/-- The hint string of the 404 body. -/
def hintMsg : String :=
  "Verify the measure ID exists for this year at qpp.cms.gov"

/-- The 404 error message. -/
def notFoundMsg (year id pdfUrl : String) : String :=
  s!"PDF not found for Measure #{id} ({year}). URL tried: {pdfUrl}"

/-- The message of the error thrown when extraction yields too little text. -/
def emptyMsg : String :=
  "PDF text extraction returned empty content"

/-- The `result` object built on full success. -/
def buildResult (now : Nat) (year id : String) (pdfData : PdfData) : MeasureData :=
  { id := id
    year := year
    pdfUrl := CMS_PDF_URL year id
    fullText := strTake pdfData.text 15000
    sections := extractSections pdfData.text
    pageCount := pdfData.numpages
    charCount := pdfData.text.length
    fetchedAt := now
    source := "Official CMS QPP PDF (qpp.cms.gov)" }

/-- The handler of `GET /api/cms/measure/:year/:id`, parameterized by the
outcome of the outbound `fetch` (`Except.error` models a rejected promise,
caught by the route's `catch`) and of `pdfParse` on the downloaded buffer
(consulted only when the fetch produced an `ok` response).  Returns the
response sent and the cache after the call.  Mirrors the source line by
line: cache guard, fetch, `!pdfResponse.ok` check, parse, the
`!fullText || fullText.length < 100` throw, `extractSections`, store. -/
def handleMeasure (c : Cache) (now : Nat) (year id : String)
    (fetchResult : Except String HttpResp) (parseResult : Except String PdfData) :
    Response × Cache :=
  match cacheHit c now (cacheKey year id) with
  | some data => (Response.success data true, c)
  | none =>
    match fetchResult with
    | Except.error msg => (Response.serverError msg id year (CMS_PDF_URL year id), c)
    | Except.ok resp =>
      if resp.ok = false then
        (Response.notFound (notFoundMsg year id (CMS_PDF_URL year id)) id year
          (CMS_PDF_URL year id) hintMsg, c)
      else
        match parseResult with
        | Except.error msg => (Response.serverError msg id year (CMS_PDF_URL year id), c)
        | Except.ok pdfData =>
          if pdfData.text = "" ∨ pdfData.text.length < 100 then
            (Response.serverError emptyMsg id year (CMS_PDF_URL year id), c)
          else
            (Response.success (buildResult now year id pdfData) false,
             cacheSet (cacheKey year id) { data := buildResult now year id pdfData, ts := now } c)

/-- The success payload of a response, when there is one. -/
def successData : Response → Option MeasureData
  | Response.success data _ => some data
  | _ => none

/-- The empty cache (process start). -/
def emptyCache : Cache := fun _ => none

/-- Whether some terminator alternative of `stops` matches at some suffix
of the text (decidable side condition for the no-match lemmas). -/
def stopSomewhere (stops : List (List Atom)) : List Char → Bool
  | [] => stopMatches stops []
  | c :: rest => stopMatches stops (c :: rest) || stopSomewhere stops rest

/-- Case-insensitive prefix test. -/
def ciBegins : List Char → List Char → Bool
  | [], _ => true
  | _ :: _, [] => false
  | c :: cs, d :: ds => ciEq c d && ciBegins cs ds

/-- Case-insensitive substring occurrence. -/
def containsCI (pat : List Char) : List Char → Bool
  | [] => ciBegins pat []
  | c :: rest => ciBegins pat (c :: rest) || containsCI pat rest

/-- String-level wrapper: does `text` contain `lbl` up to case? -/
def hasLabelCI (lbl text : String) : Bool :=
  containsCI lbl.data text.data

/-- The contribution of a single rule: the processed capture under the
rule's name, when the rule matches. -/
def runRule (text : List Char) (r : SectionRule) : Option (String × String) :=
  (searchMatch r text).map (fun cap => (r.name, String.mk ((jsTrim cap).take 1000)))

/-! ## Concrete inputs used by counterexamples and witnesses -/

/-- Strip the message field off an error response: two failure responses
are distinguishable other than by message string exactly when they differ
after `eraseMsg`. -/
def eraseMsg : Response → Response
  | Response.serverError _ i y u => Response.serverError "" i y u
  | Response.notFound _ i y u h => Response.notFound "" i y u h
  | r => r

/-- A 100-character extracted text for the end-to-end scenario of the spec:
it contains the magic sentence and enough neutral padding to pass the
100-character minimum. -/
def C1text : String :=
  "NUMERATOR: Patients screened. EXCLUSION: Patients under 18. zzzzzzzzzzzzzzzzzzzzzzzzzzzzzzzzzzzzzzzz"

/-- The end-to-end run for year 2024, id 7 on an empty cache at time 0,
with a successful download and a parse yielding `C1text` over 5 pages. -/
def C1run : Response × Cache :=
  handleMeasure emptyCache 0 "2024" "7" (Except.ok { ok := true, status := 200 })
    (Except.ok { text := C1text, numpages := 5 })

/-- The result object that run produces. -/
def C1res : MeasureData :=
  buildResult 0 "2024" "7" { text := C1text, numpages := 5 }

/-- A successfully parsed document of only 16 characters. -/
def short16 : PdfData :=
  { text := "ABCDEFGHIJKLMNOP", numpages := 1 }

/-- Response to a thrown network timeout. -/
def rTimeout : Response :=
  (handleMeasure emptyCache 0 "2024" "7" (Except.error "network timeout") (Except.ok short16)).fst

/-- Response to a downloaded payload that fails PDF parsing. -/
def rMalformed : Response :=
  (handleMeasure emptyCache 0 "2024" "7" (Except.ok { ok := true, status := 200 })
    (Except.error "Invalid PDF structure")).fst

/-- Response to a successfully parsed 16-character text. -/
def rEmpty : Response :=
  (handleMeasure emptyCache 0 "2024" "7" (Except.ok { ok := true, status := 200 })
    (Except.ok short16)).fst

/-- A sample stored result, for cache witnesses. -/
def sampleData : MeasureData :=
  { id := "7", year := "2024", pdfUrl := "u", fullText := "t", sections := [],
    pageCount := 1, charCount := 1, fetchedAt := 0, source := "s" }

/-- A cache holding a single entry for (2024, 7) stored at time 0. -/
def expiredCache : Cache :=
  cacheSet (cacheKey "2024" "7") { data := sampleData, ts := 0 } emptyCache

/-! ## Helper lemmas about the matcher -/

theorem greedySuffixes_mem {k : Nat} {l r : List Char} (h : r ∈ greedySuffixes k l) :
    ∃ j, r = l.drop j := by
  induction k with
  | zero => simp [greedySuffixes] at h
  | succ k2 ih =>
    simp only [greedySuffixes, List.mem_cons] at h
    rcases h with h | h
    · exact ⟨k2 + 1, h⟩
    · exact ih h

theorem matchAtom_suffix {a : Atom} {l r : List Char} (h : r ∈ matchAtom a l) : r <:+ l := by
  cases a with
  | lit c =>
    cases l with
    | nil => simp [matchAtom] at h
    | cons d rest =>
      simp only [matchAtom] at h
      by_cases hc : ciEq c d = true
      · simp [hc] at h; rw [h]; exact List.suffix_cons d rest
      · simp [hc] at h
  | wsPlus =>
    obtain ⟨j, hj⟩ := greedySuffixes_mem (by simpa [matchAtom] using h)
    subst hj; exact List.drop_suffix j l
  | colonWsPlus =>
    obtain ⟨j, hj⟩ := greedySuffixes_mem (by simpa [matchAtom] using h)
    subst hj; exact List.drop_suffix j l
  | optLit c =>
    cases l with
    | nil => simp only [matchAtom, List.mem_singleton] at h; subst h; exact List.suffix_refl []
    | cons d rest =>
      simp only [matchAtom] at h
      by_cases hc : ciEq c d = true
      · simp only [hc, if_pos] at h
        rcases List.mem_cons.mp h with h | h
        · rw [h]; exact List.suffix_cons d rest
        · simp at h; subst h; exact List.suffix_refl _
      · simp [hc] at h; subst h; exact List.suffix_refl _
  | eos =>
    cases l with
    | nil => simp only [matchAtom, List.mem_singleton] at h; subst h; exact List.suffix_refl []
    | cons d rest => simp [matchAtom] at h

theorem matchAtoms_suffix {as : List Atom} {l r : List Char} (h : r ∈ matchAtoms as l) :
    r <:+ l := by
  induction as generalizing l with
  | nil => simp only [matchAtoms, List.mem_singleton] at h; rw [h]
  | cons a as2 ih =>
    simp only [matchAtoms, List.mem_flatMap] at h
    obtain ⟨m, hm, hr⟩ := h
    exact (ih hr).trans (matchAtom_suffix hm)

theorem lazyCaptureFrom_stop {stops : List (List Atom)} {acc l cap : List Char}
    (h : lazyCaptureFrom stops acc l = some cap) :
    ∃ t, t <:+ l ∧ stopMatches stops t = true := by
  induction l generalizing acc with
  | nil => simp [lazyCaptureFrom] at h
  | cons d rest ih =>
    simp only [lazyCaptureFrom] at h
    by_cases hs : stopMatches stops rest = true
    · exact ⟨rest, List.suffix_cons d rest, hs⟩
    · simp only [hs, if_neg, Bool.false_eq_true, not_false_iff] at h
      obtain ⟨t, ht, hst⟩ := ih h
      exact ⟨t, ht.trans (List.suffix_cons d rest), hst⟩

theorem firstSome_some {α β : Type} {f : α → Option β} {l : List α} {b : β}
    (h : firstSome f l = some b) : ∃ a ∈ l, f a = some b := by
  induction l with
  | nil => simp [firstSome] at h
  | cons x xs ih =>
    simp only [firstSome] at h
    cases hx : f x with
    | some v =>
      rw [hx] at h
      exact ⟨x, List.mem_cons_self x xs, by rw [hx]; exact h⟩
    | none =>
      rw [hx] at h
      obtain ⟨a, ha, hfa⟩ := ih h
      exact ⟨a, List.mem_cons_of_mem x ha, hfa⟩

theorem tryAt_stop {r : SectionRule} {l cap : List Char} (h : tryAt r l = some cap) :
    ∃ t, t <:+ l ∧ stopMatches r.stops t = true := by
  obtain ⟨rest, hrest, hcap⟩ := firstSome_some h
  obtain ⟨t, ht, hs⟩ := lazyCaptureFrom_stop hcap
  exact ⟨t, ht.trans (matchAtoms_suffix hrest), hs⟩

theorem searchMatch_stop {r : SectionRule} {l cap : List Char}
    (h : searchMatch r l = some cap) :
    ∃ t, t <:+ l ∧ stopMatches r.stops t = true := by
  induction l with
  | nil => exact tryAt_stop (by simpa [searchMatch] using h)
  | cons c rest ih =>
    simp only [searchMatch] at h
    cases htry : tryAt r (c :: rest) with
    | some cap2 => exact tryAt_stop htry
    | none =>
      rw [htry] at h
      obtain ⟨t, ht, hs⟩ := ih h
      exact ⟨t, ht.trans (List.suffix_cons c rest), hs⟩

theorem stopSomewhere_of_suffix {stops : List (List Atom)} {t l : List Char}
    (ht : t <:+ l) (hs : stopMatches stops t = true) : stopSomewhere stops l = true := by
  induction l with
  | nil =>
    have : t = [] := List.suffix_nil.mp ht
    subst this
    simpa [stopSomewhere] using hs
  | cons c rest ih =>
    rcases List.suffix_cons_iff.mp ht with h | h
    · subst h; simp [stopSomewhere, hs]
    · simp [stopSomewhere, ih h]

theorem searchMatch_eq_none_of_noStop {r : SectionRule} {l : List Char}
    (h : stopSomewhere r.stops l = false) : searchMatch r l = none := by
  cases hm : searchMatch r l with
  | none => rfl
  | some cap =>
    obtain ⟨t, ht, hs⟩ := searchMatch_stop hm
    rw [stopSomewhere_of_suffix ht hs] at h
    cases h

/-! ## Label-presence lemmas (a rule can only match where its label occurs) -/

theorem matchAtoms_lits_ciBegins {w : List Char} {as : List Atom} {l : List Char}
    (h : matchAtoms (w.map Atom.lit ++ as) l ≠ []) : ciBegins w l = true := by
  induction w generalizing l with
  | nil => simp [ciBegins]
  | cons c cs ih =>
    simp only [List.map_cons, List.cons_append, matchAtoms] at h
    cases l with
    | nil => simp [matchAtom] at h
    | cons d ds =>
      simp only [matchAtom] at h
      by_cases hc : ciEq c d = true
      · simp only [hc, if_pos] at h
        simp only [List.flatMap_cons, List.flatMap_nil, List.append_nil] at h
        simp [ciBegins, hc, ih h]
      · simp [hc] at h

theorem tryAt_ne_nil_pre {r : SectionRule} {l cap : List Char}
    (h : tryAt r l = some cap) : matchAtoms r.pre l ≠ [] := by
  obtain ⟨m, hm, _⟩ := firstSome_some h
  intro he
  rw [he] at hm
  cases hm

theorem searchMatch_label {r : SectionRule} {w : List Char} {as : List Atom}
    (hpre : r.pre = w.map Atom.lit ++ as) {l cap : List Char}
    (h : searchMatch r l = some cap) : containsCI w l = true := by
  induction l with
  | nil =>
    have hne := tryAt_ne_nil_pre (by simpa [searchMatch] using h)
    rw [hpre] at hne
    simpa [containsCI] using matchAtoms_lits_ciBegins hne
  | cons c rest ih =>
    simp only [searchMatch] at h
    cases htry : tryAt r (c :: rest) with
    | some cap2 =>
      have hne := tryAt_ne_nil_pre htry
      rw [hpre] at hne
      simp [containsCI, matchAtoms_lits_ciBegins hne]
    | none =>
      rw [htry] at h
      simp [containsCI, ih h]

/-! ## Characterization of `extractSections` as a `filterMap` -/

theorem foldl_sections_eq (text : String) (l : List SectionRule) (init : List (String × String)) :
    l.foldl
      (fun sections r =>
        match searchMatch r text.data with
        | some cap => sections ++ [(r.name, String.mk ((jsTrim cap).take 1000))]
        | none => sections)
      init = init ++ l.filterMap (runRule text.data) := by
  induction l generalizing init with
  | nil => simp
  | cons r rs ih =>
    simp only [List.foldl_cons, List.filterMap_cons, runRule]
    cases h : searchMatch r text.data with
    | some cap => simp [h, ih, List.append_assoc]
    | none => simp [h, ih]

theorem extractSections_eq_filterMap (text : String) :
    extractSections text = patterns.filterMap (runRule text.data) := by
  simpa [extractSections] using foldl_sections_eq text patterns []

theorem extractSections_mem {s : String} {k v : String} (h : (k, v) ∈ extractSections s) :
    ∃ r ∈ patterns, r.name = k ∧
      ∃ cap, searchMatch r s.data = some cap ∧ v = String.mk ((jsTrim cap).take 1000) := by
  rw [extractSections_eq_filterMap] at h
  obtain ⟨r, hr, hrun⟩ := List.mem_filterMap.mp h
  refine ⟨r, hr, ?_⟩
  unfold runRule at hrun
  cases hm : searchMatch r s.data with
  | none => rw [hm] at hrun; cases hrun
  | some cap =>
    rw [hm] at hrun
    simp only [Option.map_some', Option.some.injEq, Prod.mk.injEq] at hrun
    exact ⟨hrun.1, cap, rfl, hrun.2.symm⟩

theorem sectionsGet_filterMap_cons_ne {t : List Char} {r : SectionRule}
    {l : List SectionRule} {k : String} (h : (r.name == k) = false) :
    sectionsGet ((r :: l).filterMap (runRule t)) k = sectionsGet (l.filterMap (runRule t)) k := by
  cases hm : searchMatch r t with
  | none => simp [List.filterMap_cons, runRule, hm]
  | some cap => simp [List.filterMap_cons, runRule, hm, sectionsGet, List.find?_cons, h]

theorem sectionsGet_filterMap_cons_eq {t : List Char} {r : SectionRule}
    {l : List SectionRule} {k : String} (h : (r.name == k) = true) :
    sectionsGet ((r :: l).filterMap (runRule t)) k =
      match searchMatch r t with
      | some cap => some (String.mk ((jsTrim cap).take 1000))
      | none => sectionsGet (l.filterMap (runRule t)) k := by
  cases hm : searchMatch r t with
  | none => simp [List.filterMap_cons, runRule, hm]
  | some cap => simp [List.filterMap_cons, runRule, hm, sectionsGet, List.find?_cons, h]

theorem sectionsGet_nil_filterMap {t : List Char} {k : String} :
    sectionsGet (([] : List SectionRule).filterMap (runRule t)) k = none := by
  simp [sectionsGet]

theorem sectionsGet_rationale (s : String) :
    sectionsGet (extractSections s) "rationale" =
      (searchMatch rationaleRule s.data).map (fun cap => String.mk ((jsTrim cap).take 1000)) := by
  rw [extractSections_eq_filterMap]
  simp only [patterns]
  rw [sectionsGet_filterMap_cons_ne (by decide), sectionsGet_filterMap_cons_ne (by decide),
    sectionsGet_filterMap_cons_ne (by decide), sectionsGet_filterMap_cons_ne (by decide),
    sectionsGet_filterMap_cons_ne (by decide), sectionsGet_filterMap_cons_ne (by decide),
    sectionsGet_filterMap_cons_ne (by decide), sectionsGet_filterMap_cons_ne (by decide),
    sectionsGet_filterMap_cons_eq (by decide)]
  cases hm : searchMatch rationaleRule s.data with
  | some cap => simp
  | none =>
    simp only [Option.map_none]
    rw [sectionsGet_filterMap_cons_ne (by decide)]
    exact sectionsGet_nil_filterMap

theorem sectionsGet_denominator (s : String) :
    sectionsGet (extractSections s) "denominator" =
      (searchMatch denominatorRule s.data).map (fun cap => String.mk ((jsTrim cap).take 1000)) := by
  rw [extractSections_eq_filterMap]
  simp only [patterns]
  rw [sectionsGet_filterMap_cons_ne (by decide), sectionsGet_filterMap_cons_ne (by decide),
    sectionsGet_filterMap_cons_ne (by decide), sectionsGet_filterMap_cons_eq (by decide)]
  cases hm : searchMatch denominatorRule s.data with
  | some cap => simp
  | none =>
    simp only [Option.map_none]
    rw [sectionsGet_filterMap_cons_ne (by decide), sectionsGet_filterMap_cons_ne (by decide),
      sectionsGet_filterMap_cons_ne (by decide), sectionsGet_filterMap_cons_ne (by decide),
      sectionsGet_filterMap_cons_ne (by decide), sectionsGet_filterMap_cons_ne (by decide)]
    exact sectionsGet_nil_filterMap

/-! ## Handler lemmas -/

theorem handleMeasure_success_false {c : Cache} {now : Nat} {y i : String}
    {f : Except String HttpResp} {p : Except String PdfData} {r : MeasureData}
    (h : (handleMeasure c now y i f p).fst = Response.success r false) :
    handleMeasure c now y i f p =
      (Response.success r false, cacheSet (cacheKey y i) { data := r, ts := now } c) := by
  unfold handleMeasure at h ⊢
  cases hc : cacheHit c now (cacheKey y i) with
  | some d => rw [hc] at h; simp at h
  | none =>
    rw [hc] at h
    cases f with
    | error m => simp at h
    | ok resp =>
      by_cases hok : resp.ok = false
      · simp [hok] at h
      · cases p with
        | error m => simp [hok] at h
        | ok d =>
          by_cases hlen : d.text = "" ∨ d.text.length < 100
          · simp [hok, hlen] at h
          · simp only [hok, hlen] at h ⊢
            simp [hok, hlen] at h
            simp [hok, hlen, h]

/-! ## Claims -/

/-- Claim C9: the document locator is a pure, total, deterministic
function: `CMS_PDF_URL` always produces the same address for the same
inputs, the id is left-padded with zeros to the fixed width 3 (the padded
id is an all-zero prefix followed by the id, of length `max 3 id.length`),
and `CMS_PDF_URL "2024" "7"` is the fixed URL whose path contains the
`007` segment. -/
theorem locator_deterministic_pad3 :
    (∀ y i : String, CMS_PDF_URL y i = CMS_PDF_URL y i) ∧
    (∀ i : String, padStart 3 '0' i = String.mk (List.replicate (3 - i.length) '0') ++ i) ∧
    (∀ i : String, (padStart 3 '0' i).length = max 3 i.length) ∧
    CMS_PDF_URL "2024" "7" =
      "https://qpp.cms.gov/docs/QPP_quality_measure_specifications/CQM-Measures/2024_Measure_007_MIPSCQM.pdf" := by
  refine ⟨fun y i => rfl, fun i => rfl, fun i => ?_, by decide⟩
  simp only [padStart, String.length_append, String.length_mk, List.length_replicate]
  omega

/-- Claim C4: cache lookup for a key is a hit exactly when an entry exists
whose age is strictly below `PDF_TTL`; an entry stored at `T` is a hit at
any query time strictly before `T + PDF_TTL` and a miss at or after it;
and the route treats an expired entry exactly like an absent one (the
stale value is never returned: the response equals the response computed
with the entry removed). -/
theorem cache_ttl_semantics (c : Cache) (k : String) (now : Nat) :
    (∀ d, cacheHit c now k = some d ↔
      ∃ e, c k = some e ∧ e.data = d ∧ now - e.ts < PDF_TTL) ∧
    (∀ d T c2,
      (now < T + PDF_TTL →
        cacheHit (cacheSet k { data := d, ts := T } c2) now k = some d) ∧
      (T + PDF_TTL ≤ now →
        cacheHit (cacheSet k { data := d, ts := T } c2) now k = none)) ∧
    (∀ y i f p e, c (cacheKey y i) = some e → e.ts + PDF_TTL ≤ now →
      (handleMeasure c now y i f p).fst =
        (handleMeasure (cacheRemove (cacheKey y i) c) now y i f p).fst) := by
  refine ⟨?_, ?_, ?_⟩
  · intro d
    cases hc : c k with
    | none => simp [cacheHit, hc]
    | some e =>
      by_cases hage : now - e.ts < PDF_TTL
      · simp [cacheHit, hc, hage]
      · simp [cacheHit, hc, hage]
  · intro d T c2
    constructor
    · intro hlt
      have hP : 0 < PDF_TTL := by decide
      have : now - T < PDF_TTL := by omega
      simp [cacheHit, cacheSet, this]
    · intro hge
      have : ¬(now - T < PDF_TTL) := by omega
      simp [cacheHit, cacheSet, this]
  · intro y i f p e he hexp
    have h1 : cacheHit c now (cacheKey y i) = none := by
      have : ¬(now - e.ts < PDF_TTL) := by omega
      simp [cacheHit, he, this]
    have h2 : cacheHit (cacheRemove (cacheKey y i) c) now (cacheKey y i) = none := by
      simp [cacheHit, cacheRemove]
    unfold handleMeasure
    rw [h1, h2]
    cases f with
    | error m => rfl
    | ok resp =>
      by_cases hok : resp.ok = false
      · simp [hok]
      · cases p with
        | error m => simp [hok]
        | ok d =>
          by_cases hlen : d.text = "" ∨ d.text.length < 100
          · simp [hok, hlen]
          · simp [hok, hlen]

/-- Witness for C4: an entry stored at time 0 is a miss at `PDF_TTL`, and
the route's response with the expired entry equals the response with the
entry removed. -/
theorem cache_ttl_semantics_witness :
    (0 + PDF_TTL ≤ PDF_TTL ∧
      expiredCache (cacheKey "2024" "7") = some { data := sampleData, ts := 0 }) ∧
    cacheHit (cacheSet "k" { data := sampleData, ts := 0 } emptyCache) PDF_TTL "k" = none ∧
    (handleMeasure expiredCache PDF_TTL "2024" "7" (Except.error "down")
        (Except.error "bad")).fst =
      (handleMeasure (cacheRemove (cacheKey "2024" "7") expiredCache) PDF_TTL "2024" "7"
        (Except.error "down") (Except.error "bad")).fst :=
  ⟨⟨by omega, by decide⟩,
   ((cache_ttl_semantics emptyCache "k" PDF_TTL).2.1 sampleData 0 emptyCache).2 (by omega),
   (cache_ttl_semantics expiredCache "unused" PDF_TTL).2.2 "2024" "7" (Except.error "down")
     (Except.error "bad") { data := sampleData, ts := 0 } (by decide) (by decide)⟩

/-- Claim C10: when a resolution fails at any step (the response is not a
200 success), the cache is left completely unchanged — no entry is
created, replaced, or refreshed for any key. -/
theorem failure_leaves_cache_unchanged (c : Cache) (now : Nat) (y i : String)
    (f : Except String HttpResp) (p : Except String PdfData)
    (h : respStatus (handleMeasure c now y i f p).fst ≠ 200) :
    (handleMeasure c now y i f p).snd = c := by
  unfold handleMeasure at h ⊢
  cases hc : cacheHit c now (cacheKey y i) with
  | some d => rfl
  | none =>
    rw [hc] at h
    cases f with
    | error m => rfl
    | ok resp =>
      by_cases hok : resp.ok = false
      · simp [hok]
      · cases p with
        | error m => simp [hok]
        | ok d =>
          by_cases hlen : d.text = "" ∨ d.text.length < 100
          · simp [hok, hlen]
          · simp [hok, hlen, respStatus] at h

/-- Witness for C10: a failed resolution (transport error) leaves the
empty cache unchanged. -/
theorem failure_leaves_cache_unchanged_witness :
    respStatus (handleMeasure emptyCache 0 "2024" "7" (Except.error "boom")
        (Except.ok short16)).fst ≠ 200 ∧
    (handleMeasure emptyCache 0 "2024" "7" (Except.error "boom")
        (Except.ok short16)).snd = emptyCache :=
  ⟨by decide,
   failure_leaves_cache_unchanged emptyCache 0 "2024" "7" (Except.error "boom")
     (Except.ok short16) (by decide)⟩

/-- Claim C6: for every successfully extracted document, `charCount`
equals the length of the untruncated extracted text even though
`fullText` in the result is truncated to the 15,000-character cap;
truncation never alters `charCount`. -/
theorem charCount_untruncated (c : Cache) (now : Nat) (y i : String)
    (resp : HttpResp) (d : PdfData)
    (hmiss : cacheHit c now (cacheKey y i) = none) (hok : resp.ok = true)
    (hlen : 100 ≤ d.text.length) :
    (successData (handleMeasure c now y i (Except.ok resp) (Except.ok d)).fst).map
      (fun r => (r.charCount, r.fullText)) = some (d.text.length, strTake d.text 15000) := by
  unfold handleMeasure
  rw [hmiss]
  have hok2 : ¬(resp.ok = false) := by simp [hok]
  have hne : ¬(d.text = "" ∨ d.text.length < 100) := by
    push_neg
    refine ⟨?_, by omega⟩
    intro he
    rw [he] at hlen
    simp at hlen
  simp [hok2, hne, successData, buildResult]

/-- Witness for C6: the 100-character text `C1text` gives a success whose
`charCount` is 100 and whose `fullText` is the (un-truncated) take. -/
theorem charCount_untruncated_witness :
    (cacheHit emptyCache 0 (cacheKey "2024" "7") = none ∧
      (HttpResp.mk true 200).ok = true ∧ 100 ≤ C1text.length) ∧
    (successData (handleMeasure emptyCache 0 "2024" "7"
        (Except.ok { ok := true, status := 200 })
        (Except.ok { text := C1text, numpages := 5 })).fst).map
      (fun r => (r.charCount, r.fullText)) = some (C1text.length, strTake C1text 15000) :=
  ⟨⟨by decide, by decide, by decide⟩,
   charCount_untruncated emptyCache 0 "2024" "7" { ok := true, status := 200 }
     { text := C1text, numpages := 5 } (by decide) (by decide) (by decide)⟩

/-- Claim C7: if parsing succeeds but the text is shorter than 100
characters (or empty), the route fails with the empty-extraction error;
a parse yielding at least 100 characters is not rejected for this reason
(it produces the success result). -/
theorem empty_extraction_threshold (c : Cache) (now : Nat) (y i : String)
    (resp : HttpResp) (d : PdfData)
    (hmiss : cacheHit c now (cacheKey y i) = none) (hok : resp.ok = true) :
    ((handleMeasure c now y i (Except.ok resp) (Except.ok d)).fst =
        Response.serverError emptyMsg i y (CMS_PDF_URL y i) ↔ d.text.length < 100) ∧
    (100 ≤ d.text.length →
      (handleMeasure c now y i (Except.ok resp) (Except.ok d)).fst =
        Response.success (buildResult now y i d) false) := by
  unfold handleMeasure
  rw [hmiss]
  have hok2 : ¬(resp.ok = false) := by simp [hok]
  by_cases hlen : d.text = "" ∨ d.text.length < 100
  · have hlt : d.text.length < 100 := by
      rcases hlen with he | hl
      · rw [he]; decide
      · exact hl
    refine ⟨by simp [hok2, hlen, hlt], ?_⟩
    intro h100
    omega
  · have h100 : 100 ≤ d.text.length := by
      push_neg at hlen
      omega
    refine ⟨?_, fun _ => by simp [hok2, hlen]⟩
    simp [hok2, hlen]
    omega

/-- Witness for C7: a successfully parsed 16-character text yields exactly
the empty-extraction 502, and 16 < 100. -/
theorem empty_extraction_threshold_witness :
    (cacheHit emptyCache 0 (cacheKey "2024" "7") = none ∧
      (HttpResp.mk true 200).ok = true) ∧
    ((handleMeasure emptyCache 0 "2024" "7" (Except.ok { ok := true, status := 200 })
        (Except.ok short16)).fst =
      Response.serverError emptyMsg "7" "2024" (CMS_PDF_URL "2024" "7") ↔
        short16.text.length < 100) :=
  ⟨⟨by decide, by decide⟩,
   (empty_extraction_threshold emptyCache 0 "2024" "7" { ok := true, status := 200 }
     short16 (by decide) (by decide)).1⟩

/-- After a successful (non-cached) resolve, any resolve of the same pair
within the TTL window is a pure cache hit: independent of the new fetch
and parse behavior, it returns the stored result tagged `cached` and
leaves the cache untouched. -/
theorem resolve_after_success {c : Cache} {now1 now2 : Nat} {y i : String}
    {f : Except String HttpResp} {p : Except String PdfData} {r : MeasureData}
    (f2 : Except String HttpResp) (p2 : Except String PdfData)
    (h1 : (handleMeasure c now1 y i f p).fst = Response.success r false)
    (h2 : now2 - now1 < PDF_TTL) :
    handleMeasure ((handleMeasure c now1 y i f p).snd) now2 y i f2 p2 =
      (Response.success r true, (handleMeasure c now1 y i f p).snd) := by
  have hinv := handleMeasure_success_false h1
  have hsnd : (handleMeasure c now1 y i f p).snd =
      cacheSet (cacheKey y i) { data := r, ts := now1 } c := by rw [hinv]
  rw [hsnd]
  unfold handleMeasure
  have hhit : cacheHit (cacheSet (cacheKey y i) { data := r, ts := now1 } c) now2
      (cacheKey y i) = some r := by
    simp [cacheHit, cacheSet, h2]
  rw [hhit]

/-- Claim C5: a resolve immediately following a successful resolve of the
same (year, id) within the TTL window consults neither retrieval nor
extraction (the outcome is the same for every fetch behavior `f2` and
parse behavior `p2`), and returns a result identical to the first one
except for the cache-hit flag, leaving the cache as it was. -/
theorem cached_resolve_identical (c : Cache) (now1 now2 : Nat) (y i : String)
    (f f2 : Except String HttpResp) (p p2 : Except String PdfData) (r : MeasureData)
    (h1 : (handleMeasure c now1 y i f p).fst = Response.success r false)
    (h2 : now2 - now1 < PDF_TTL) :
    handleMeasure ((handleMeasure c now1 y i f p).snd) now2 y i f2 p2 =
      (Response.success r true, (handleMeasure c now1 y i f p).snd) :=
  resolve_after_success f2 p2 h1 h2

/-- Witness for C5: the concrete successful resolve of (2024, 7) on
`C1text` followed one millisecond later by a resolve whose fetch and
parse would both fail; the second call returns the first result with
`cached := true`. -/
theorem cached_resolve_identical_witness :
    ((handleMeasure emptyCache 0 "2024" "7" (Except.ok { ok := true, status := 200 })
        (Except.ok { text := C1text, numpages := 5 })).fst = Response.success C1res false ∧
      (1 : Nat) - 0 < PDF_TTL) ∧
    handleMeasure ((handleMeasure emptyCache 0 "2024" "7"
        (Except.ok { ok := true, status := 200 })
        (Except.ok { text := C1text, numpages := 5 })).snd) 1 "2024" "7"
        (Except.error "down") (Except.error "bad") =
      (Response.success C1res true,
       (handleMeasure emptyCache 0 "2024" "7" (Except.ok { ok := true, status := 200 })
        (Except.ok { text := C1text, numpages := 5 })).snd) :=
  ⟨⟨by decide, by decide⟩,
   cached_resolve_identical emptyCache 0 1 "2024" "7"
     (Except.ok { ok := true, status := 200 }) (Except.error "down")
     (Except.ok { text := C1text, numpages := 5 }) (Except.error "bad")
     C1res (by decide) (by decide)⟩

/-- Claim C1 (amended): in the end-to-end scenario with year 2024, id 7
and a successfully extracted 100-character text containing
"NUMERATOR: Patients screened. EXCLUSION: Patients under 18.", the
resolution succeeds and its SectionMap contains numerator with value
"Patients screened." but NO exclusions key (the exclusions rule only
matches when one of its terminator labels EXCEPTION, RATIO, CLINICAL or
PERFORMANCE follows, and none does), and at every time strictly within
the 7-day TTL a subsequent resolve of (2024, 7) — whatever its fetch and
parse would do — returns this exact result as a cache hit with the cache
unchanged. -/
theorem end_to_end_scenario (t : Nat) (f2 : Except String HttpResp)
    (p2 : Except String PdfData) (ht : t < PDF_TTL) :
    C1run.fst = Response.success C1res false ∧
    sectionsGet C1res.sections "numerator" = some "Patients screened." ∧
    sectionsGet C1res.sections "exclusions" = none ∧
    handleMeasure C1run.snd t "2024" "7" f2 p2 = (Response.success C1res true, C1run.snd) := by
  refine ⟨by decide, by decide, by decide, ?_⟩
  exact resolve_after_success f2 p2 (by decide) (by omega)

/-- Witness for C1 at `t := 0` with failing fetch and parse on the second
call. -/
theorem end_to_end_scenario_witness :
    (0 < PDF_TTL) ∧
    (C1run.fst = Response.success C1res false ∧
      sectionsGet C1res.sections "numerator" = some "Patients screened." ∧
      sectionsGet C1res.sections "exclusions" = none ∧
      handleMeasure C1run.snd 0 "2024" "7" (Except.error "down") (Except.error "bad") =
        (Response.success C1res true, C1run.snd)) :=
  ⟨by decide, end_to_end_scenario 0 (Except.error "down") (Except.error "bad") (by decide)⟩

/-- Counterexample to C1 as stated: in that very scenario the resolution
succeeds but its SectionMap has no exclusions key at all — in particular
it does not map exclusions to "Patients under 18.". -/
theorem end_to_end_scenario_cex :
    C1run.fst = Response.success C1res false ∧
    sectionsGet C1res.sections "exclusions" ≠ some "Patients under 18." :=
  ⟨by decide, by decide⟩

/-- Claim C2 (amended): a non-success HTTP status yields the 404 not-found
response, which is distinguishable by status; but a thrown transport
error, a payload that fails PDF parsing, and a successfully parsed text
shorter than 100 characters all yield 502 responses of identical shape,
differing only in the message string — the orchestrator collapses these
three kinds into one generic failure. -/
theorem error_kind_collapse (c : Cache) (now : Nat) (y i m mp : String)
    (p : Except String PdfData) (badresp goodresp : HttpResp) (d : PdfData)
    (hmiss : cacheHit c now (cacheKey y i) = none)
    (hbad : badresp.ok = false) (hgood : goodresp.ok = true)
    (hshort : d.text.length < 100) :
    (handleMeasure c now y i (Except.error m) p).fst =
      Response.serverError m i y (CMS_PDF_URL y i) ∧
    (handleMeasure c now y i (Except.ok badresp) p).fst =
      Response.notFound (notFoundMsg y i (CMS_PDF_URL y i)) i y (CMS_PDF_URL y i) hintMsg ∧
    (handleMeasure c now y i (Except.ok goodresp) (Except.error mp)).fst =
      Response.serverError mp i y (CMS_PDF_URL y i) ∧
    (handleMeasure c now y i (Except.ok goodresp) (Except.ok d)).fst =
      Response.serverError emptyMsg i y (CMS_PDF_URL y i) := by
  have hgood2 : ¬(goodresp.ok = false) := by simp [hgood]
  refine ⟨?_, ?_, ?_, ?_⟩ <;> unfold handleMeasure <;> rw [hmiss]
  · simp [hbad]
  · simp [hgood2]
  · simp [hgood2, Or.inr hshort]

/-- Witness for C2 at the concrete 16-character document and concrete
messages. -/
theorem error_kind_collapse_witness :
    (cacheHit emptyCache 0 (cacheKey "2024" "7") = none ∧
      (HttpResp.mk false 404).ok = false ∧ (HttpResp.mk true 200).ok = true ∧
      short16.text.length < 100) ∧
    ((handleMeasure emptyCache 0 "2024" "7" (Except.error "network timeout")
        (Except.ok short16)).fst =
      Response.serverError "network timeout" "7" "2024" (CMS_PDF_URL "2024" "7") ∧
    (handleMeasure emptyCache 0 "2024" "7" (Except.ok { ok := false, status := 404 })
        (Except.ok short16)).fst =
      Response.notFound (notFoundMsg "2024" "7" (CMS_PDF_URL "2024" "7")) "7" "2024"
        (CMS_PDF_URL "2024" "7") hintMsg ∧
    (handleMeasure emptyCache 0 "2024" "7" (Except.ok { ok := true, status := 200 })
        (Except.error "Invalid PDF structure")).fst =
      Response.serverError "Invalid PDF structure" "7" "2024" (CMS_PDF_URL "2024" "7") ∧
    (handleMeasure emptyCache 0 "2024" "7" (Except.ok { ok := true, status := 200 })
        (Except.ok short16)).fst =
      Response.serverError emptyMsg "7" "2024" (CMS_PDF_URL "2024" "7")) :=
  ⟨⟨by decide, by decide, by decide, by decide⟩,
   error_kind_collapse emptyCache 0 "2024" "7" "network timeout" "Invalid PDF structure"
     (Except.ok short16) { ok := false, status := 404 } { ok := true, status := 200 } short16
     (by decide) (by decide) (by decide) (by decide)⟩

/-- Counterexample to C2 as stated: the responses to a thrown timeout, an
unparsable payload, and a 16-character extraction are pairwise different
responses that all carry HTTP status 502 and become identical once the
message string is erased — callers cannot distinguish these kinds other
than by message string. -/
theorem error_kind_collapse_cex :
    respStatus rTimeout = 502 ∧ respStatus rMalformed = 502 ∧ respStatus rEmpty = 502 ∧
    rTimeout ≠ rMalformed ∧ rMalformed ≠ rEmpty ∧ rTimeout ≠ rEmpty ∧
    eraseMsg rTimeout = eraseMsg rMalformed ∧ eraseMsg rMalformed = eraseMsg rEmpty := by
  decide

/-- Claim C3 (amended): for every input text, if the text contains a
DENOMINATOR label but none of the denominator rule's recognized
terminator labels (DENOMINATOR NOTE, NUMERATOR, EXCLUSION) anywhere, the
rule does not match at all — there is no capture-to-end-of-text fallback,
so the SectionMap has no denominator key; and if the text contains no
RATIONALE label, the SectionMap has no rationale key at all rather than
an empty-string value. -/
theorem segmenter_absence (s : String) :
    (stopSomewhere denominatorRule.stops s.data = false →
      sectionsGet (extractSections s) "denominator" = none) ∧
    (hasLabelCI "RATIONALE" s = false →
      sectionsGet (extractSections s) "rationale" = none) := by
  constructor
  · intro hstop
    rw [sectionsGet_denominator, searchMatch_eq_none_of_noStop hstop]
    rfl
  · intro hlbl
    rw [sectionsGet_rationale]
    have hnone : searchMatch rationaleRule s.data = none := by
      cases hm : searchMatch rationaleRule s.data with
      | none => rfl
      | some cap =>
        have hpre : rationaleRule.pre = "RATIONALE".data.map Atom.lit ++ [Atom.colonWsPlus] :=
          rfl
        have hc := searchMatch_label hpre hm
        unfold hasLabelCI at hlbl
        rw [hc] at hlbl
        simp at hlbl
    rw [hnone]
    rfl

/-- Witness for C3, exercising each conditional on its own: a text with a
DENOMINATOR label, no denominator terminator but a RATIONALE label gets
no denominator key, and a text with no RATIONALE label (though with a
denominator terminator, NUMERATOR) gets no rationale key. -/
theorem segmenter_absence_witness :
    (stopSomewhere denominatorRule.stops "DENOMINATOR: x RATIONALE: y".data = false ∧
      sectionsGet (extractSections "DENOMINATOR: x RATIONALE: y") "denominator" = none) ∧
    (hasLabelCI "RATIONALE" "NUMERATOR: x" = false ∧
      sectionsGet (extractSections "NUMERATOR: x") "rationale" = none) :=
  ⟨⟨by decide, (segmenter_absence "DENOMINATOR: x RATIONALE: y").1 (by decide)⟩,
   ⟨by decide, (segmenter_absence "NUMERATOR: x").2 (by decide)⟩⟩

/-- Counterexample to C3 as stated: this text contains a DENOMINATOR
label and no recognized terminator before end of text, yet the
denominator rule does not capture to end-of-text — the SectionMap has no
denominator key at all. -/
theorem segmenter_absence_cex :
    hasLabelCI "DENOMINATOR" "DENOMINATOR: All patients aged 18 or older." = true ∧
    sectionsGet (extractSections "DENOMINATOR: All patients aged 18 or older.")
      "denominator" = none := by
  decide

/-- Claim C8 (amended): every entry the segmenter inserts comes from a
matched rule — the key is a rule's name and the value is that rule's
capture, trimmed of surrounding whitespace and then truncated to at most
1000 characters (hence every value has length at most 1000), and a key
appears only when its rule matched; however an all-whitespace capture
trims to the empty string, so an empty-string entry is possible. -/
theorem section_entries_shape (s k v : String) (h : (k, v) ∈ extractSections s) :
    v.length ≤ 1000 ∧
    ∃ r ∈ patterns, r.name = k ∧
      ∃ cap, searchMatch r s.data = some cap ∧ v = String.mk ((jsTrim cap).take 1000) := by
  obtain ⟨r, hr, hname, cap, hcap, hv⟩ := extractSections_mem h
  refine ⟨?_, r, hr, hname, cap, hcap, hv⟩
  rw [hv]
  simp [String.length_mk, List.length_take]

/-- Witness for C8: the single entry produced on a small text. -/
theorem section_entries_shape_witness :
    ("numerator", "Willingly") ∈ extractSections "NUMERATOR: Willingly EXCLUSION" ∧
    "Willingly".length ≤ 1000 :=
  ⟨by decide,
   (section_entries_shape "NUMERATOR: Willingly EXCLUSION" "numerator" "Willingly"
     (by decide)).1⟩

/-- Counterexample to C8 as stated: on this text the numerator rule's
`[:\s]+` gives back one character, the lazy group captures a single
space, and trimming yields an empty-string entry in the SectionMap. -/
theorem section_entries_shape_cex :
    extractSections "NUMERATOR: RATIO" = [("numerator", "")] ∧
    sectionsGet (extractSections "NUMERATOR: RATIO") "numerator" = some "" := by
  decide
